import Mathlib

/-!
Verification of the record-normalization and geocoding-enrichment pipeline
(`src/data_pipeline.py`).

The Python source is shallowly embedded as executable Lean definitions:

* The remote geocoding HTTP service is modelled as an oracle
  `net : String → GeoResponse` (forward) and `netRev : Int → Int → GeoResponse`
  (reverse).  `GeoResponse.failure` stands for any exception raised inside the
  `try` block of the Python wrappers (transport error, malformed JSON, missing
  key); a well-formed JSON body is `GeoResponse.ok status results`.
* Latitudes and longitudes are carried around but never computed with, so they
  are modelled as `Int` values.
* Python `None`/`NaN` cell values are modelled as `Option.none`; `str` values
  as `Option.some`.  Python truthiness of an optional string (`None` and `""`
  are falsy) is `truthyStr`; pandas `isna` is `Option.isNone`.
* The `dict` cache of `GeocodingService` is an association list with
  most-recent-insertion-first lookup (`cacheLookup`), which has the same
  observable lookup behaviour as the Python dict for this program (a key is
  inserted at most once per miss).
* Each stateful wrapper returns its result together with the service state and
  the number of network requests it issued, making network I/O and cache
  mutation observable in theorems.
* File reading (pandas `read_csv` / `read_excel`) is external I/O outside the
  core: `process_province` receives the already-parsed rows.  Rows are
  modelled by `RowState` with the columns the enrichment loop touches; the
  `City` column is modelled as always present (as the code requires on the
  paths the claims exercise).
-/

/-- One entry of the `address_components` array of a geocoding JSON response. -/
structure AddressComponent where
  types : List String
  long_name : String
deriving DecidableEq, Repr

/-- One entry of the `results` array of a geocoding JSON response. -/
structure GeoCandidate where
  lat : Int
  lng : Int
  address_components : List AddressComponent
deriving DecidableEq, Repr

/-- Outcome of one HTTP request to the geocoding endpoint.  `failure` models
any exception raised while requesting or decoding (transport failure or
malformed response); `ok status results` models a decoded JSON body. -/
inductive GeoResponse where
  | failure
  | ok (status : String) (results : List GeoCandidate)
deriving DecidableEq, Repr

/-- The state of `GeocodingService`: its query-string-keyed response cache
(`self.cache`). -/
structure GeocodingService where
  cache : List (String × (Option Int × Option Int × Option String))
deriving DecidableEq, Repr

/-- Python `dict` lookup on the association-list model of the cache. -/
def cacheLookup {V : Type} : List (String × V) → String → Option V
  | [], _ => none
  | (k, v) :: rest, a => if k = a then some v else cacheLookup rest a

/-- Result of `GeocodingService.get_coordinates`: the returned triple, the
service state after the call, and how many network requests were issued. -/
structure GeoOutcome where
  result : Option Int × Option Int × Option String
  svc : GeocodingService
  netCalls : Nat
deriving DecidableEq, Repr

/-- The `for component in result["address_components"]` loop of
`get_coordinates`: first component whose `types` contain `"postal_code"`. -/
def findPostal : List AddressComponent → Option String
  | [] => none
  | c :: rest =>
    if c.types.contains "postal_code" then some c.long_name else findPostal rest

/-- `GeocodingService.get_coordinates` (src/data_pipeline.py lines 64-88).
The address argument is `Option String`: `none` models a non-string value
(`isinstance` guard), `some ""` an empty string (both falsy in Python). -/
def get_coordinates (net : String → GeoResponse) (svc : GeocodingService)
    (address : Option String) : GeoOutcome :=
  match address with
  | none => ⟨(none, none, none), svc, 0⟩
  | some a =>
    if a = "" then ⟨(none, none, none), svc, 0⟩
    else
      match cacheLookup svc.cache a with
      | some v => ⟨v, svc, 0⟩
      | none =>
        match net a with
        | .failure => ⟨(none, none, none), svc, 1⟩
        | .ok status results =>
          if status = "OK" then
            match results with
            | [] => ⟨(none, none, none), svc, 1⟩
            | r :: _ =>
              let postal := findPostal r.address_components
              ⟨(some r.lat, some r.lng, postal),
               ⟨(a, (some r.lat, some r.lng, postal)) :: svc.cache⟩, 1⟩
          else ⟨(none, none, none), svc, 1⟩

/-- The nested `for result in data["results"]` loop of
`get_postal_from_coords`: first postal-code component across all results. -/
def findPostalInResults : List GeoCandidate → Option String
  | [] => none
  | r :: rest =>
    match findPostal r.address_components with
    | some p => some p
    | none => findPostalInResults rest

/-- Result of `GeocodingService.get_postal_from_coords`. -/
structure RevOutcome where
  postal : Option String
  svc : GeocodingService
  netCalls : Nat
deriving DecidableEq, Repr

/-- `GeocodingService.get_postal_from_coords` (src/data_pipeline.py lines
90-103).  The body never mentions `self.cache`; the state is threaded to make
that observable. -/
def get_postal_from_coords (netRev : Int → Int → GeoResponse)
    (svc : GeocodingService) (lat lng : Int) : RevOutcome :=
  match netRev lat lng with
  | .failure => ⟨none, svc, 1⟩
  | .ok status results =>
    if status = "OK" then ⟨findPostalInResults results, svc, 1⟩
    else ⟨none, svc, 1⟩

/-- ASCII letter, the `[A-Za-z]` character class of the postal regex. -/
def isAsciiLetter (c : Char) : Bool :=
  ('A' ≤ c ∧ c ≤ 'Z') ∨ ('a' ≤ c ∧ c ≤ 'z')

/-- ASCII digit, the `\d` character class of the postal regex (the claims only
involve ASCII text). -/
def isAsciiDigit (c : Char) : Bool :=
  '0' ≤ c ∧ c ≤ '9'

/-- Whitespace as matched by the regex class `\s` and stripped by Python
`str.strip()` on ASCII text. -/
def isSpacePy (c : Char) : Bool :=
  c = ' ' ∨ c = '\t' ∨ c = '\n' ∨ c = '\r' ∨ c = '\x0b' ∨ c = '\x0c'

/-- Attempt to match the postal pattern
`[A-Za-z]\d[A-Za-z]\s?\d[A-Za-z]\d` at the head of the character list,
returning the matched characters.  `\s?` is greedy: the 7-character form with
the separator is tried before the 6-character form, as Python `re` does. -/
def matchPostalAt : List Char → Option (List Char)
  | a :: b :: c :: d :: e :: f :: g :: _ =>
    if isAsciiLetter a ∧ isAsciiDigit b ∧ isAsciiLetter c then
      if isSpacePy d ∧ isAsciiDigit e ∧ isAsciiLetter f ∧ isAsciiDigit g then
        some [a, b, c, d, e, f, g]
      else if isAsciiDigit d ∧ isAsciiLetter e ∧ isAsciiDigit f then
        some [a, b, c, d, e, f]
      else none
    else none
  | [a, b, c, d, e, f] =>
    if isAsciiLetter a ∧ isAsciiDigit b ∧ isAsciiLetter c
        ∧ isAsciiDigit d ∧ isAsciiLetter e ∧ isAsciiDigit f then
      some [a, b, c, d, e, f]
    else none
  | _ => none

/-- `re.search` for the postal pattern: leftmost match wins. -/
def searchPostal : List Char → Option (List Char)
  | [] => none
  | c :: rest =>
    match matchPostalAt (c :: rest) with
    | some m => some m
    | none => searchPostal rest

/-- Case-insensitive literal match of `pat` against the head of the input;
returns the remaining input on success.  Models a `re.IGNORECASE` literal
(city is `re.escape`d in the source; province and postal code contain no
regex metacharacters in this pipeline's inputs). -/
def matchLitCI : List Char → List Char → Option (List Char)
  | [], l => some l
  | _ :: _, [] => none
  | p :: ps, c :: cs => if p.toLower = c.toLower then matchLitCI ps cs else none

/-- Attempt to match the removal pattern
`,\s*<city>\s*,?\s*<province>\s*<postal>` (case-insensitive) at the head of
the input, returning the suffix after the match.  `\s*` is maximal-munch,
which agrees with the greedy regex because none of the literals begins with
whitespace or a comma on this pipeline's inputs. -/
def matchRemoveAt (city prov : String) (postal : Option String) :
    List Char → Option (List Char)
  | [] => none
  | c :: rest =>
    if c = ',' then
      match matchLitCI city.toList (rest.dropWhile isSpacePy) with
      | none => none
      | some rest2 =>
        let afterCity := rest2.dropWhile isSpacePy
        let tailMatch : List Char → Option (List Char) := fun l =>
          match matchLitCI prov.toList (l.dropWhile isSpacePy) with
          | none => none
          | some l2 => matchLitCI (postal.getD "").toList (l2.dropWhile isSpacePy)
        match afterCity with
        | ',' :: rest3 =>
          match tailMatch rest3 with
          | some r => some r
          | none => tailMatch afterCity
        | _ => tailMatch afterCity
    else none

/-- `re.sub(remove_pattern, "", ...)`: delete every non-overlapping occurrence
of the removal pattern, scanning left to right.  Fuel-indexed; fuel equal to
the input length suffices since every step consumes at least one character. -/
def removeAll (city prov : String) (postal : Option String) :
    Nat → List Char → List Char
  | 0, l => l
  | _ + 1, [] => []
  | fuel + 1, c :: rest =>
    match matchRemoveAt city prov postal (c :: rest) with
    | some remaining => removeAll city prov postal fuel remaining
    | none => c :: removeAll city prov postal fuel rest

/-- Python `str.strip()`: drop whitespace from both ends. -/
def stripChars (l : List Char) : List Char :=
  ((l.dropWhile isSpacePy).reverse.dropWhile isSpacePy).reverse

/-- `DataCleaner.clean_bc_address` (src/data_pipeline.py lines 118-127) on a
string input: extract the first postal-pattern match, delete every occurrence
of `,\s*city\s*,?\s*province\s*postal`, and strip the remainder. -/
def clean_bc_address (full_address city province : String) :
    String × Option String :=
  let postal := (searchPostal full_address.toList).map (fun l => String.mk l)
  let cleaned := removeAll city province postal
    full_address.toList.length full_address.toList
  (String.mk (stripChars cleaned), postal)

/-- Python truthiness of an optional string: `None` and `""` are falsy. -/
def truthyStr : Option String → Bool
  | none => false
  | some s => s ≠ ""

/-- The columns of one store record that the enrichment loop of
`process_province` reads or writes.  `fullAddress` is `some` exactly when the
`FullAddress` key is present in the row. -/
structure RowState where
  city : String
  fullProvinceName : String
  fullAddress : Option String
  address : Option String
  postalCode : Option String
  latitude : Option Int
  longitude : Option Int
deriving DecidableEq, Repr

/-- The BC-specific cleanup at the top of the row loop (src/data_pipeline.py
lines 195-205): compute `current_addr`, and when the province is `"BC"` and
the row has a `FullAddress` field, clean it, store the cleaned address, and
store the extracted postal code whenever the existing postal cell is falsy. -/
def bcStep (provinceCode : String) (row : RowState) : RowState × String :=
  let currentAddr := row.address.getD ""
  if provinceCode = "BC" then
    match row.fullAddress with
    | some fa =>
      let cleaned := clean_bc_address fa row.city "British Columbia"
      let row1 := { row with
        address := some cleaned.1,
        postalCode := if truthyStr row.postalCode then row.postalCode else cleaned.2 }
      (row1, cleaned.1)
    | none => (row, currentAddr)
  else (row, currentAddr)

/-- Result of the retry loop: the last triple obtained, the service state,
and the number of attempts (calls to `get_coordinates`) made. -/
structure RetryOutcome where
  result : Option Int × Option Int × Option String
  svc : GeocodingService
  attempts : Nat
deriving DecidableEq, Repr

/-- The `for attempt in range(1, max_retries + 1)` loop of `process_province`
(src/data_pipeline.py lines 211-217): call `get_coordinates`, stop early when
both coordinates are present, and otherwise keep the last attempt's triple. -/
def retryGeocode (net : String → GeoResponse) (q : String) :
    GeocodingService → Nat → RetryOutcome
  | svc, 0 => ⟨(none, none, none), svc, 0⟩
  | svc, n + 1 =>
    let o := get_coordinates net svc (some q)
    if o.result.1.isSome ∧ o.result.2.1.isSome then ⟨o.result, o.svc, 1⟩
    else
      match n with
      | 0 => ⟨o.result, o.svc, 1⟩
      | m + 1 =>
        let r := retryGeocode net q o.svc (m + 1)
        ⟨r.result, r.svc, r.attempts + 1⟩

/-- Result of processing one row. -/
structure RowOutcome where
  row : RowState
  svc : GeocodingService
  attempts : Nat
deriving DecidableEq, Repr

/-- The body of the per-row loop of `process_province` (src/data_pipeline.py
lines 194-230): BC cleanup, build the query string, retry forward geocoding,
write both coordinate cells from the final triple, and write the returned
postal code only when the current cell is missing and the new value truthy. -/
def processRow (net : String → GeoResponse) (provinceCode : String)
    (maxRetries : Nat) (svc : GeocodingService) (row : RowState) : RowOutcome :=
  let step := bcStep provinceCode row
  let row1 := step.1
  let q := step.2 ++ ", " ++ row1.city ++ ", " ++ row1.fullProvinceName ++ ", Canada"
  let r := retryGeocode net q svc maxRetries
  let postal := r.result.2.2
  let row2 := { row1 with
    latitude := r.result.1,
    longitude := r.result.2.1,
    postalCode :=
      if row1.postalCode.isNone ∧ truthyStr postal then postal
      else row1.postalCode }
  ⟨row2, r.svc, r.attempts⟩

/-- The whole per-row loop of `process_province`, in input order. -/
def processRows (net : String → GeoResponse) (provinceCode : String)
    (maxRetries : Nat) : GeocodingService → List RowState →
    List RowState × GeocodingService
  | svc, [] => ([], svc)
  | svc, row :: rest =>
    let o := processRow net provinceCode maxRetries svc row
    let tail := processRows net provinceCode maxRetries o.svc rest
    (o.row :: tail.1, tail.2)

/-- The error taxonomy of the spec that this pipeline hits:
`configurationError` is the `KeyError` raised by
`Config.PROVINCE_FULL_NAMES[province_code]` on an unknown region code, and
`valueError` the `ValueError` raised when no region batch succeeds. -/
inductive PipelineError where
  | configurationError
  | valueError
deriving DecidableEq, Repr

/-- `Config.PROVINCE_FULL_NAMES` (src/data_pipeline.py lines 41-47) as a
partial lookup: `none` models the `KeyError` on an unknown code. -/
def PROVINCE_FULL_NAMES : String → Option String
  | "AB" => some "Alberta"
  | "BC" => some "British Columbia"
  | "MB" => some "Manitoba"
  | "NB" => some "New Brunswick"
  | "NL" => some "Newfoundland and Labrador"
  | "NS" => some "Nova Scotia"
  | "NT" => some "Northwest Territories"
  | "NU" => some "Nunavut"
  | "ON" => some "Ontario"
  | "PE" => some "Prince Edward Island"
  | "QC" => some "Quebec"
  | "SK" => some "Saskatchewan"
  | "YT" => some "Yukon"
  | _ => none

/-- `StoreLocationsProcessor.process_province` (src/data_pipeline.py lines
152-235) after the file has been read and parsed (file I/O is an external
adapter): fill `FullProvinceName` from the lookup table — raising for an
unknown code, before any geocoding — then run the enrichment loop. -/
def process_province (net : String → GeoResponse) (maxRetries : Nat)
    (svc : GeocodingService) (provinceCode : String) (rows : List RowState) :
    Except PipelineError (List RowState × GeocodingService) :=
  match PROVINCE_FULL_NAMES provinceCode with
  | none => .error .configurationError
  | some full =>
    .ok (processRows net provinceCode maxRetries svc
      (rows.map (fun r => { r with fullProvinceName := full })))

/-- The `for config in province_configs` loop of `process_all_provinces`
(src/data_pipeline.py lines 271-278): run each region's batch, append its
output when non-empty, and on an exception skip that batch and continue. -/
def runConfigs (net : String → GeoResponse) (maxRetries : Nat) :
    GeocodingService → List (String × List RowState) →
    List (List RowState) × GeocodingService
  | svc, [] => ([], svc)
  | svc, (prov, rows) :: rest =>
    match process_province net maxRetries svc prov rows with
    | .error _ => runConfigs net maxRetries svc rest
    | .ok (out, svc1) =>
      let tail := runConfigs net maxRetries svc1 rest
      (if out.isEmpty then tail.1 else out :: tail.1, tail.2)

/-- The reverse-lookup post-pass of `process_all_provinces`
(src/data_pipeline.py lines 292-299): for each record whose postal cell is
missing and whose coordinates are both present, write the reverse lookup's
postal code (which may itself be missing). -/
def fillMissingPostal (netRev : Int → Int → GeoResponse) :
    GeocodingService → List RowState → List RowState × GeocodingService
  | svc, [] => ([], svc)
  | svc, r :: rest =>
    match r.postalCode with
    | some _ =>
      let tail := fillMissingPostal netRev svc rest
      (r :: tail.1, tail.2)
    | none =>
      match r.latitude, r.longitude with
      | some la, some lo =>
        let o := get_postal_from_coords netRev svc la lo
        let tail := fillMissingPostal netRev o.svc rest
        ({ r with postalCode := o.postal } :: tail.1, tail.2)
      | _, _ =>
        let tail := fillMissingPostal netRev svc rest
        (r :: tail.1, tail.2)

/-- `StoreLocationsProcessor.process_all_provinces` (src/data_pipeline.py
lines 237-301): run every region config, raise `ValueError` when no batch
produced rows, concatenate the batches, and backfill missing postal codes by
reverse lookup. -/
def process_all_provinces (net : String → GeoResponse)
    (netRev : Int → Int → GeoResponse) (maxRetries : Nat)
    (svc : GeocodingService) (configs : List (String × List RowState)) :
    Except PipelineError (List RowState × GeocodingService) :=
  let run := runConfigs net maxRetries svc configs
  if run.1.isEmpty then .error .valueError
  else .ok (fillMissingPostal netRev run.2 run.1.flatten)

/-- Well-formedness of the cache: every cached triple has both coordinates
present.  The only write site (the success path of `get_coordinates`) caches
only such triples, so the invariant holds throughout a run from the empty
initial cache. -/
def CacheWF (svc : GeocodingService) : Prop :=
  ∀ p ∈ svc.cache, p.2.1.isSome ∧ p.2.2.1.isSome

/-- Classifies a forward response as one the `get_coordinates` body turns into
`(None, None, None)`: an exception, a non-`"OK"` status, or an empty results
array (whose `[0]` indexing raises and is caught). -/
def failResponse : GeoResponse → Bool
  | .failure => true
  | .ok st rs => st ≠ "OK" || rs.isEmpty

/-- Fixture: a network oracle whose every forward lookup fails. -/
def failNet : String → GeoResponse := fun _ => GeoResponse.failure

/-- Fixture: a network oracle that resolves every forward lookup to one
candidate carrying a postal-code component. -/
def okNet : String → GeoResponse :=
  fun _ => GeoResponse.ok "OK" [⟨49, -123, [⟨["postal_code"], "V5K0A1"⟩]⟩]

/-- Fixture: a reverse oracle whose every lookup fails. -/
def failRevNet : Int → Int → GeoResponse := fun _ _ => GeoResponse.failure

/-- Fixture: the service state at the start of a run (empty cache). -/
def emptySvc : GeocodingService := ⟨[]⟩

/-- Fixture: a BC row whose `FullAddress` has no postal pattern and whose
postal cell holds the empty string (non-null, falsy). -/
def bcRow : RowState :=
  ⟨"Vancouver", "British Columbia", some "x", some "x", some "", none, none⟩

/-- Fixture: a plain AB row with no postal code. -/
def abRow : RowState :=
  ⟨"Calgary", "Alberta", none, some "1 First St", none, none, none⟩

/-- Fixture: an AB row with an already-resolved postal code. -/
def postalRow : RowState :=
  ⟨"Calgary", "Alberta", none, some "1 First St", some "T2P 1J9", none, none⟩

/-! ## Helper lemmas -/

theorem gc_invalid (net : String → GeoResponse) (svc : GeocodingService)
    (q : Option String) (h : q = none ∨ q = some "") :
    get_coordinates net svc q = ⟨(none, none, none), svc, 0⟩ := by
  rcases h with h | h <;> subst h <;> simp [get_coordinates]

theorem gc_hit (net : String → GeoResponse) (svc : GeocodingService)
    (a : String) (v : Option Int × Option Int × Option String)
    (ha : a ≠ "") (h : cacheLookup svc.cache a = some v) :
    get_coordinates net svc (some a) = ⟨v, svc, 0⟩ := by
  simp [get_coordinates, ha, h]

theorem gc_miss_fail (net : String → GeoResponse) (svc : GeocodingService)
    (a : String) (ha : a ≠ "") (hc : cacheLookup svc.cache a = none)
    (hn : net a = .failure) :
    get_coordinates net svc (some a) = ⟨(none, none, none), svc, 1⟩ := by
  simp [get_coordinates, ha, hc, hn]

theorem gc_miss_bad (net : String → GeoResponse) (svc : GeocodingService)
    (a st : String) (rs : List GeoCandidate) (ha : a ≠ "")
    (hc : cacheLookup svc.cache a = none) (hn : net a = .ok st rs)
    (hst : st ≠ "OK") :
    get_coordinates net svc (some a) = ⟨(none, none, none), svc, 1⟩ := by
  simp [get_coordinates, ha, hc, hn, hst]

theorem gc_miss_empty (net : String → GeoResponse) (svc : GeocodingService)
    (a : String) (ha : a ≠ "") (hc : cacheLookup svc.cache a = none)
    (hn : net a = .ok "OK" []) :
    get_coordinates net svc (some a) = ⟨(none, none, none), svc, 1⟩ := by
  simp [get_coordinates, ha, hc, hn]

theorem gc_miss_success (net : String → GeoResponse) (svc : GeocodingService)
    (a : String) (r : GeoCandidate) (rs : List GeoCandidate) (ha : a ≠ "")
    (hc : cacheLookup svc.cache a = none) (hn : net a = .ok "OK" (r :: rs)) :
    get_coordinates net svc (some a) =
      ⟨(some r.lat, some r.lng, findPostal r.address_components),
       ⟨(a, (some r.lat, some r.lng, findPostal r.address_components)) :: svc.cache⟩,
       1⟩ := by
  simp [get_coordinates, ha, hc, hn]

theorem cacheLookup_cons_self {V : Type} (a : String) (v : V)
    (l : List (String × V)) : cacheLookup ((a, v) :: l) a = some v := by
  simp [cacheLookup]

theorem cacheLookup_mem {V : Type} (l : List (String × V)) (a : String) (v : V)
    (h : cacheLookup l a = some v) : (a, v) ∈ l := by
  induction l with
  | nil => simp [cacheLookup] at h
  | cons p rest ih =>
    obtain ⟨k, w⟩ := p
    by_cases hk : k = a
    · subst hk
      simp [cacheLookup] at h
      subst h
      exact List.mem_cons_self _ _
    · simp [cacheLookup, hk] at h
      exact List.mem_cons_of_mem _ (ih h)

theorem gc_wf (net : String → GeoResponse) (svc : GeocodingService)
    (q : Option String) (h : CacheWF svc) :
    CacheWF (get_coordinates net svc q).svc
    ∧ ((get_coordinates net svc q).result.1.isSome ↔
        (get_coordinates net svc q).result.2.1.isSome) := by
  rcases q with _ | a
  · rw [gc_invalid net svc none (Or.inl rfl)]
    exact ⟨h, by simp⟩
  · by_cases ha : a = ""
    · subst ha
      rw [gc_invalid net svc (some "") (Or.inr rfl)]
      exact ⟨h, by simp⟩
    · cases hc : cacheLookup svc.cache a with
      | some v =>
        rw [gc_hit net svc a v ha hc]
        have hv := h _ (cacheLookup_mem svc.cache a v hc)
        exact ⟨h, by simp [hv.1, hv.2]⟩
      | none =>
        cases hn : net a with
        | failure =>
          rw [gc_miss_fail net svc a ha hc hn]
          exact ⟨h, by simp⟩
        | ok st rs =>
          by_cases hst : st = "OK"
          · subst hst
            cases rs with
            | nil =>
              rw [gc_miss_empty net svc a ha hc hn]
              exact ⟨h, by simp⟩
            | cons r rest =>
              rw [gc_miss_success net svc a r rest ha hc hn]
              refine ⟨?_, by simp⟩
              intro p hp
              rcases List.mem_cons.mp hp with hp | hp
              · subst hp; exact ⟨rfl, rfl⟩
              · exact h p hp
          · rw [gc_miss_bad net svc a st rs ha hc hn hst]
            exact ⟨h, by simp⟩

theorem retryGeocode_succ (net : String → GeoResponse) (q : String)
    (svc : GeocodingService) (n : Nat) :
    retryGeocode net q svc (n + 1) =
      (let o := get_coordinates net svc (some q)
       if o.result.1.isSome ∧ o.result.2.1.isSome then ⟨o.result, o.svc, 1⟩
       else
         match n with
         | 0 => ⟨o.result, o.svc, 1⟩
         | m + 1 =>
           let r := retryGeocode net q o.svc (m + 1)
           ⟨r.result, r.svc, r.attempts + 1⟩) := by
  rw [retryGeocode.eq_def]

theorem retry_wf (net : String → GeoResponse) (q : String) :
    ∀ (n : Nat) (svc : GeocodingService), CacheWF svc →
      CacheWF (retryGeocode net q svc n).svc
      ∧ ((retryGeocode net q svc n).result.1.isSome ↔
          (retryGeocode net q svc n).result.2.1.isSome) := by
  intro n
  induction n with
  | zero => intro svc h; exact ⟨h, by simp [retryGeocode]⟩
  | succ n ih =>
    intro svc h
    have hgc := gc_wf net svc (some q) h
    rw [retryGeocode_succ]
    by_cases hs : (get_coordinates net svc (some q)).result.1.isSome
        ∧ (get_coordinates net svc (some q)).result.2.1.isSome
    · simp only [hs, and_self, if_true]
      exact ⟨hgc.1, by simp [hs.1, hs.2]⟩
    · simp only [if_neg hs]
      cases n with
      | zero => exact ⟨hgc.1, hgc.2⟩
      | succ m => exact ih (get_coordinates net svc (some q)).svc hgc.1

theorem retry_attempts (net : String → GeoResponse) (q : String) :
    ∀ (n : Nat) (svc : GeocodingService),
      (retryGeocode net q svc n).attempts ≤ n := by
  intro n
  induction n with
  | zero => intro svc; simp [retryGeocode]
  | succ n ih =>
    intro svc
    rw [retryGeocode_succ]
    by_cases hs : (get_coordinates net svc (some q)).result.1.isSome
        ∧ (get_coordinates net svc (some q)).result.2.1.isSome
    · simp [hs]
    · simp only [if_neg hs]
      cases n with
      | zero => simp
      | succ m =>
        simpa using Nat.succ_le_succ (ih (get_coordinates net svc (some q)).svc)

theorem truthy_isNone_false (o : Option String) (h : truthyStr o = true) :
    o.isNone = false := by
  cases o with
  | none => simp [truthyStr] at h
  | some s => rfl

theorem processRow_wf (net : String → GeoResponse) (prov : String)
    (maxR : Nat) (svc : GeocodingService) (row : RowState) (h : CacheWF svc) :
    CacheWF (processRow net prov maxR svc row).svc
    ∧ ((processRow net prov maxR svc row).row.latitude.isSome ↔
        (processRow net prov maxR svc row).row.longitude.isSome) := by
  have hr := retry_wf net
    ((bcStep prov row).2 ++ ", " ++ (bcStep prov row).1.city ++ ", "
      ++ (bcStep prov row).1.fullProvinceName ++ ", Canada") maxR svc h
  exact ⟨hr.1, hr.2⟩

theorem processRow_attempts (net : String → GeoResponse) (prov : String)
    (maxR : Nat) (svc : GeocodingService) (row : RowState) :
    (processRow net prov maxR svc row).attempts ≤ maxR :=
  retry_attempts net _ maxR svc

theorem bcStep_postal_keep (prov : String) (row : RowState)
    (h : truthyStr row.postalCode = true) :
    (bcStep prov row).1.postalCode = row.postalCode := by
  unfold bcStep
  by_cases hp : prov = "BC"
  · subst hp
    cases row.fullAddress <;> simp [h]
  · simp [hp]

theorem processRow_postal_keep (net : String → GeoResponse) (prov : String)
    (maxR : Nat) (svc : GeocodingService) (row : RowState)
    (h : truthyStr row.postalCode = true) :
    (processRow net prov maxR svc row).row.postalCode = row.postalCode := by
  unfold processRow
  simp only []
  rw [bcStep_postal_keep prov row h, truthy_isNone_false row.postalCode h]
  simp [bcStep_postal_keep prov row h]

theorem bcStep_fullProv (prov : String) (row : RowState) :
    (bcStep prov row).1.fullProvinceName = row.fullProvinceName := by
  unfold bcStep
  by_cases hp : prov = "BC"
  · subst hp; cases row.fullAddress <;> simp
  · simp [hp]

theorem processRow_fullProv (net : String → GeoResponse) (prov : String)
    (maxR : Nat) (svc : GeocodingService) (row : RowState) :
    (processRow net prov maxR svc row).row.fullProvinceName
      = row.fullProvinceName := by
  unfold processRow
  simp [bcStep_fullProv prov row]

theorem processRows_length (net : String → GeoResponse) (prov : String)
    (maxR : Nat) :
    ∀ (rows : List RowState) (svc : GeocodingService),
      (processRows net prov maxR svc rows).1.length = rows.length := by
  intro rows
  induction rows with
  | nil => intro svc; rfl
  | cons row rest ih =>
    intro svc
    simp [processRows, ih]

theorem processRows_fullProv (net : String → GeoResponse) (prov full : String)
    (maxR : Nat) :
    ∀ (rows : List RowState) (svc : GeocodingService),
      (∀ r ∈ rows, r.fullProvinceName = full) →
      ∀ r' ∈ (processRows net prov maxR svc rows).1, r'.fullProvinceName = full := by
  intro rows
  induction rows with
  | nil => intro svc _ r' hr'; simp [processRows] at hr'
  | cons row rest ih =>
    intro svc h r' hr'
    rw [processRows] at hr'
    rcases List.mem_cons.mp hr' with hr' | hr'
    · subst hr'
      rw [processRow_fullProv]
      exact h row (List.mem_cons_self _ _)
    · exact ih _ (fun r hr => h r (List.mem_cons_of_mem _ hr)) r' hr'

theorem fillMissingPostal_keep (netRev : Int → Int → GeoResponse) :
    ∀ (rows : List RowState) (svc : GeocodingService),
      List.Forall₂ (fun r r' => r.postalCode.isSome → r' = r)
        rows (fillMissingPostal netRev svc rows).1 := by
  intro rows
  induction rows with
  | nil => intro svc; simp [fillMissingPostal]
  | cons r rest ih =>
    intro svc
    rw [fillMissingPostal]
    cases hp : r.postalCode with
    | some p =>
      exact List.Forall₂.cons (fun _ => rfl) (ih svc)
    | none =>
      cases hla : r.latitude with
      | none =>
        cases hlo : r.longitude <;>
          exact List.Forall₂.cons (by simp [hp]) (ih svc)
      | some la =>
        cases hlo : r.longitude with
        | none => exact List.Forall₂.cons (by simp [hp]) (ih svc)
        | some lo => exact List.Forall₂.cons (by simp [hp]) (ih _)

theorem process_province_unknown (net : String → GeoResponse) (maxR : Nat)
    (svc : GeocodingService) (prov : String) (rows : List RowState)
    (h : PROVINCE_FULL_NAMES prov = none) :
    process_province net maxR svc prov rows = .error .configurationError := by
  simp [process_province, h]

theorem process_province_known (net : String → GeoResponse) (maxR : Nat)
    (svc : GeocodingService) (prov full : String) (rows : List RowState)
    (h : PROVINCE_FULL_NAMES prov = some full) :
    ∃ res, process_province net maxR svc prov rows = .ok res
      ∧ res.1.length = rows.length
      ∧ ∀ r' ∈ res.1, r'.fullProvinceName = full := by
  have hpp : process_province net maxR svc prov rows
      = .ok (processRows net prov maxR svc
          (rows.map (fun r => { r with fullProvinceName := full }))) := by
    unfold process_province
    rw [h]
  refine ⟨_, hpp, ?_, ?_⟩
  · rw [processRows_length, List.length_map]
  · refine processRows_fullProv net prov full maxR _ svc ?_
    intro r hr
    rcases List.mem_map.mp hr with ⟨r0, _, hr0⟩
    rw [← hr0]

theorem runConfigs_skip (net : String → GeoResponse) (maxR : Nat)
    (bad : String) (badRows : List RowState)
    (hbad : PROVINCE_FULL_NAMES bad = none) :
    ∀ (cfgs1 : List (String × List RowState)) (svc : GeocodingService)
      (cfgs2 : List (String × List RowState)),
      runConfigs net maxR svc (cfgs1 ++ (bad, badRows) :: cfgs2)
        = runConfigs net maxR svc (cfgs1 ++ cfgs2) := by
  intro cfgs1
  induction cfgs1 with
  | nil =>
    intro svc cfgs2
    simp only [List.nil_append]
    rw [runConfigs, process_province_unknown net maxR svc bad badRows hbad]
  | cons cfg rest ih =>
    intro svc cfgs2
    obtain ⟨prov, rows⟩ := cfg
    simp only [List.cons_append]
    rw [runConfigs, runConfigs]
    cases hpp : process_province net maxR svc prov rows with
    | error e => exact ih svc cfgs2
    | ok res =>
      obtain ⟨out, svc1⟩ := res
      simp only []
      rw [ih svc1 cfgs2]

theorem matchPostalAt_nil : matchPostalAt [] = none := rfl

theorem searchPostal_at_first :
    ∀ (l : List Char) (j : Nat),
      (∀ k < j, matchPostalAt (l.drop k) = none) →
      (matchPostalAt (l.drop j)).isSome →
      searchPostal l = matchPostalAt (l.drop j) := by
  intro l
  induction l with
  | nil =>
    intro j _ hsome
    rw [List.drop_nil] at hsome
    simp [matchPostalAt_nil] at hsome
  | cons c rest ih =>
    intro j hnone hsome
    cases j with
    | zero =>
      rw [List.drop_zero] at hsome ⊢
      rw [searchPostal]
      obtain ⟨m, hm⟩ := Option.isSome_iff_exists.mp hsome
      rw [hm]
    | succ j =>
      have h0 := hnone 0 (Nat.succ_pos j)
      rw [List.drop_zero] at h0
      rw [searchPostal, h0]
      rw [List.drop_succ_cons] at hsome ⊢
      refine ih j ?_ hsome
      intro k hk
      have := hnone (k + 1) (Nat.succ_lt_succ hk)
      rwa [List.drop_succ_cons] at this

theorem searchPostal_no_match :
    ∀ (l : List Char),
      (∀ k < l.length, matchPostalAt (l.drop k) = none) →
      searchPostal l = none := by
  intro l
  induction l with
  | nil => intro _; rfl
  | cons c rest ih =>
    intro h
    have h0 := h 0 (Nat.succ_pos rest.length)
    rw [List.drop_zero] at h0
    rw [searchPostal, h0]
    refine ih ?_
    intro k hk
    have := h (k + 1) (Nat.succ_lt_succ hk)
    rwa [List.drop_succ_cons] at this

theorem removeAll_no_match (city prov : String) (postal : Option String) :
    ∀ (fuel : Nat) (l : List Char),
      (∀ k < l.length, matchRemoveAt city prov postal (l.drop k) = none) →
      removeAll city prov postal fuel l = l := by
  intro fuel
  induction fuel with
  | zero => intro l _; rfl
  | succ fuel ih =>
    intro l h
    cases l with
    | nil => rfl
    | cons c rest =>
      have h0 := h 0 (Nat.succ_pos rest.length)
      rw [List.drop_zero] at h0
      rw [removeAll, h0]
      rw [ih rest ?_]
      intro k hk
      have := h (k + 1) (Nat.succ_lt_succ hk)
      rwa [List.drop_succ_cons] at this

theorem string_mk_toList (s : String) : String.mk s.toList = s := rfl

theorem gc_cache_frame (net : String → GeoResponse) (svc : GeocodingService)
    (q : Option String) :
    (get_coordinates net svc q).svc.cache = svc.cache
    ∨ ∃ a l g p, q = some a
        ∧ (get_coordinates net svc q).result = (some l, some g, p)
        ∧ (get_coordinates net svc q).svc.cache
            = (a, (some l, some g, p)) :: svc.cache := by
  rcases q with _ | a
  · exact Or.inl rfl
  · by_cases ha : a = ""
    · subst ha; exact Or.inl rfl
    · cases hc : cacheLookup svc.cache a with
      | some v => rw [gc_hit net svc a v ha hc]; exact Or.inl rfl
      | none =>
        cases hn : net a with
        | failure => rw [gc_miss_fail net svc a ha hc hn]; exact Or.inl rfl
        | ok st rs =>
          by_cases hst : st = "OK"
          · subst hst
            cases rs with
            | nil => rw [gc_miss_empty net svc a ha hc hn]; exact Or.inl rfl
            | cons r rest =>
              rw [gc_miss_success net svc a r rest ha hc hn]
              exact Or.inr ⟨a, r.lat, r.lng, findPostal r.address_components,
                rfl, rfl, rfl⟩
          · rw [gc_miss_bad net svc a st rs ha hc hn hst]; exact Or.inl rfl

/-! ## Claim theorems -/

/-- C9: for a query that is empty or not a string, `get_coordinates` returns
the unresolved triple `(None, None, None)` immediately: it issues no network
request and leaves the cache untouched. -/
theorem c9_empty_query_unresolved (net : String → GeoResponse)
    (svc : GeocodingService) (q : Option String)
    (h : q = none ∨ q = some "") :
    get_coordinates net svc q = ⟨(none, none, none), svc, 0⟩ :=
  gc_invalid net svc q h

theorem c9_empty_query_unresolved_witness :
    get_coordinates failNet emptySvc none = ⟨(none, none, none), emptySvc, 0⟩ :=
  c9_empty_query_unresolved failNet emptySvc none (Or.inl rfl)

/-- C10: `get_postal_from_coords` never reads or writes the cache — the
service state after every reverse lookup is the state before it — and every
reverse lookup issues exactly one fresh network request. -/
theorem c10_reverse_lookup_no_cache (netRev : Int → Int → GeoResponse)
    (svc : GeocodingService) (lat lng : Int) :
    (get_postal_from_coords netRev svc lat lng).svc = svc
    ∧ (get_postal_from_coords netRev svc lat lng).netCalls = 1 := by
  unfold get_postal_from_coords
  cases netRev lat lng with
  | failure => exact ⟨rfl, rfl⟩
  | ok st rs => by_cases h : st = "OK" <;> simp [h]

/-- C2: on a cache miss whose response is a failure (exception, non-`"OK"`
status, or empty results array), `get_coordinates` returns the unresolved
triple and leaves the service state unchanged, so a repeat of the same query
issues a fresh network request; and in general a call either leaves the
cache unchanged or prepends exactly one successfully resolved entry. -/
theorem c2_failure_unresolved_not_cached (net : String → GeoResponse)
    (svc : GeocodingService) (a : String) (h1 : a ≠ "")
    (h2 : cacheLookup svc.cache a = none)
    (h3 : failResponse (net a) = true) :
    get_coordinates net svc (some a) = ⟨(none, none, none), svc, 1⟩
    ∧ (get_coordinates net (get_coordinates net svc (some a)).svc (some a)).netCalls = 1
    ∧ ∀ (net' : String → GeoResponse) (svc' : GeocodingService) (q : Option String),
        (get_coordinates net' svc' q).svc.cache = svc'.cache
        ∨ ∃ a' l g p, q = some a'
            ∧ (get_coordinates net' svc' q).result = (some l, some g, p)
            ∧ (get_coordinates net' svc' q).svc.cache
                = (a', (some l, some g, p)) :: svc'.cache := by
  have hmain : get_coordinates net svc (some a) = ⟨(none, none, none), svc, 1⟩ := by
    cases hn : net a with
    | failure => exact gc_miss_fail net svc a h1 h2 hn
    | ok st rs =>
      rw [hn, failResponse] at h3
      by_cases hst : st = "OK"
      · subst hst
        simp only [ne_eq, not_true_eq_false, decide_False, Bool.false_or,
          List.isEmpty_iff] at h3
        subst h3
        exact gc_miss_empty net svc a h1 h2 hn
      · exact gc_miss_bad net svc a st rs h1 h2 hn hst
  refine ⟨hmain, ?_, fun net' svc' q => gc_cache_frame net' svc' q⟩
  rw [hmain, hmain]

theorem c2_failure_unresolved_not_cached_witness :
    get_coordinates failNet emptySvc (some "x")
      = ⟨(none, none, none), emptySvc, 1⟩ :=
  (c2_failure_unresolved_not_cached failNet emptySvc "x" (by decide) rfl rfl).1

/-- C1 counterexample: for a query whose first lookup fails, nothing is
cached, so the second call with the same query performs network I/O (one
request, not zero), contrary to the claim that the second of two successive
calls is always a no-network cache hit. -/
theorem c1_second_call_networks_counterexample :
    (get_coordinates failNet emptySvc (some "x")).result = (none, none, none)
    ∧ (get_coordinates failNet
        (get_coordinates failNet emptySvc (some "x")).svc (some "x")).netCalls = 1
    ∧ (get_coordinates failNet
        (get_coordinates failNet emptySvc (some "x")).svc (some "x")).netCalls ≠ 0 := by
  exact ⟨rfl, rfl, by decide⟩

/-- C1 (amended): two successive `get_coordinates` calls with the same query
against the same network oracle return the same triple; and whenever the
first call resolves (its latitude is present), the second call is a cache
hit: it returns the same triple, performs no network I/O, and leaves the
service state unchanged. -/
theorem c1_forward_idempotent_amended (net : String → GeoResponse)
    (svc : GeocodingService) (q : Option String) :
    (get_coordinates net (get_coordinates net svc q).svc q).result
      = (get_coordinates net svc q).result
    ∧ ((get_coordinates net svc q).result.1.isSome →
        get_coordinates net (get_coordinates net svc q).svc q
          = ⟨(get_coordinates net svc q).result, (get_coordinates net svc q).svc, 0⟩) := by
  rcases q with _ | a
  · exact ⟨rfl, fun h => by simp [gc_invalid net svc none (Or.inl rfl)] at h⟩
  · by_cases ha : a = ""
    · subst ha
      refine ⟨rfl, fun h => ?_⟩
      rw [gc_invalid net svc (some "") (Or.inr rfl)] at h
      simp at h
    · cases hc : cacheLookup svc.cache a with
      | some v =>
        simp [gc_hit net svc a v ha hc]
      | none =>
        cases hn : net a with
        | failure =>
          simp [gc_miss_fail net svc a ha hc hn]
        | ok st rs =>
          by_cases hst : st = "OK"
          · subst hst
            cases rs with
            | nil =>
              simp [gc_miss_empty net svc a ha hc hn]
            | cons r rest =>
              have e2 := gc_hit net
                ⟨(a, (some r.lat, some r.lng, findPostal r.address_components)) :: svc.cache⟩
                a (some r.lat, some r.lng, findPostal r.address_components) ha
                (cacheLookup_cons_self a _ svc.cache)
              simp [gc_miss_success net svc a r rest ha hc hn, e2]
          · simp [gc_miss_bad net svc a st rs ha hc hn hst]

theorem c1_forward_idempotent_amended_witness :
    (get_coordinates okNet (get_coordinates okNet emptySvc (some "q")).svc (some "q")).result
      = (get_coordinates okNet emptySvc (some "q")).result :=
  (c1_forward_idempotent_amended okNet emptySvc (some "q")).1

/-- C3 counterexample: a BC row whose postal cell holds the empty string — a
non-null value, but falsy in Python — and whose `FullAddress` contains no
postal pattern.  The BC cleanup branch (`if not row.get("PostalCode")`)
overwrites the non-null `""` with the null extraction result, so a non-null
postal-code value IS overwritten with null. -/
theorem c3_empty_postal_nulled_counterexample :
    bcRow.postalCode = some ""
    ∧ bcRow.postalCode.isSome = true
    ∧ (processRow failNet "BC" 3 emptySvc bcRow).row.postalCode = none := by
  exact ⟨rfl, rfl, by decide⟩

/-- C3 (amended): once the postal-code field holds a truthy value (non-null
and non-empty), the forward-enrichment row step returns it unchanged — both
its write sites are guarded by falsy/missing checks — and the reverse-lookup
post-pass returns every record whose postal code is present (any `some`
value) entirely untouched.  The unamended claim fails only for the non-null
but falsy empty-string value, which the BC cleanup branch may null out. -/
theorem c3_postal_never_nulled_amended (net : String → GeoResponse)
    (netRev : Int → Int → GeoResponse) (prov : String) (maxRetries : Nat)
    (svc svc2 : GeocodingService) (row : RowState) (rows : List RowState)
    (h : truthyStr row.postalCode = true) :
    (processRow net prov maxRetries svc row).row.postalCode = row.postalCode
    ∧ List.Forall₂ (fun r r' => r.postalCode.isSome → r' = r)
        rows (fillMissingPostal netRev svc2 rows).1 :=
  ⟨processRow_postal_keep net prov maxRetries svc row h,
   fillMissingPostal_keep netRev rows svc2⟩

theorem c3_postal_never_nulled_amended_witness :
    (processRow failNet "AB" 3 emptySvc postalRow).row.postalCode
        = postalRow.postalCode
    ∧ List.Forall₂ (fun r r' => r.postalCode.isSome → r' = r)
        [postalRow] (fillMissingPostal failRevNet emptySvc [postalRow]).1 :=
  c3_postal_never_nulled_amended failNet failRevNet "AB" 3 emptySvc emptySvc
    postalRow [postalRow] (by decide)

/-- C4: a record whose forward geocoding ends unresolved (its final latitude
is null) also has null longitude, was attempted at most `maxRetries` times
(default 3), and is kept in place in the output: the batch output has the
same length as the input and the failed record is its head, with processing
continuing on the remaining records. -/
theorem c4_exhausted_record_kept (net : String → GeoResponse) (prov : String)
    (maxRetries : Nat) (svc : GeocodingService) (row : RowState)
    (rows : List RowState) (hwf : CacheWF svc)
    (hfail : (processRow net prov maxRetries svc row).row.latitude = none) :
    (processRow net prov maxRetries svc row).row.longitude = none
    ∧ (processRow net prov maxRetries svc row).attempts ≤ maxRetries
    ∧ (processRows net prov maxRetries svc (row :: rows)).1.length
        = rows.length + 1
    ∧ (processRows net prov maxRetries svc (row :: rows)).1
        = (processRow net prov maxRetries svc row).row
          :: (processRows net prov maxRetries
                (processRow net prov maxRetries svc row).svc rows).1 := by
  refine ⟨?_, processRow_attempts net prov maxRetries svc row, ?_, rfl⟩
  · have hiff := (processRow_wf net prov maxRetries svc row hwf).2
    rw [hfail] at hiff
    simp only [Option.isSome_none, Bool.false_eq_true, false_iff] at hiff
    exact Option.not_isSome_iff_eq_none.mp (fun hcon => hiff hcon)
  · rw [processRows_length]
    rfl

theorem c4_exhausted_record_kept_witness :
    (processRow failNet "AB" 3 emptySvc abRow).row.longitude = none
    ∧ (processRow failNet "AB" 3 emptySvc abRow).attempts ≤ 3
    ∧ (processRows failNet "AB" 3 emptySvc [abRow]).1.length = 0 + 1
    ∧ (processRows failNet "AB" 3 emptySvc [abRow]).1
        = (processRow failNet "AB" 3 emptySvc abRow).row
          :: (processRows failNet "AB" 3
                (processRow failNet "AB" 3 emptySvc abRow).svc []).1 :=
  c4_exhausted_record_kept failNet "AB" 3 emptySvc abRow []
    (by intro p hp; simp [emptySvc] at hp) (by decide)

/-- C5: under the cache invariant (every cached triple carries both
coordinates, which the only cache-write site guarantees), `get_coordinates`
returns latitude and longitude together — both present or both absent — the
invariant is preserved, and a processed record's latitude and longitude
cells, written from that single triple, are both present or both absent. -/
theorem c5_lat_lng_together (net : String → GeoResponse)
    (svc : GeocodingService) (q : Option String) (prov : String)
    (maxRetries : Nat) (row : RowState) (h : CacheWF svc) :
    ((get_coordinates net svc q).result.1.isSome ↔
        (get_coordinates net svc q).result.2.1.isSome)
    ∧ CacheWF (get_coordinates net svc q).svc
    ∧ ((processRow net prov maxRetries svc row).row.latitude.isSome ↔
        (processRow net prov maxRetries svc row).row.longitude.isSome) :=
  ⟨(gc_wf net svc q h).2, (gc_wf net svc q h).1,
   (processRow_wf net prov maxRetries svc row h).2⟩

theorem c5_lat_lng_together_witness :
    ((get_coordinates okNet emptySvc (some "q")).result.1.isSome ↔
        (get_coordinates okNet emptySvc (some "q")).result.2.1.isSome)
    ∧ CacheWF (get_coordinates okNet emptySvc (some "q")).svc
    ∧ ((processRow okNet "AB" 3 emptySvc abRow).row.latitude.isSome ↔
        (processRow okNet "AB" 3 emptySvc abRow).row.longitude.isSome) :=
  c5_lat_lng_together okNet emptySvc (some "q") "AB" 3 abRow
    (by intro p hp; simp [emptySvc] at hp)

/-- C6: `clean_bc_address` extracts, as the postal code, exactly the first
(leftmost) substring of the address matching the postal pattern
letter-digit-letter, optional space, digit-letter-digit, and on the
spec's scenario-2 input returns `("123 Main St", "V5K0A1")`. -/
theorem c6_first_postal_match (s city prov : String) (j : Nat)
    (h1 : ∀ k < j, matchPostalAt (s.toList.drop k) = none)
    (h2 : (matchPostalAt (s.toList.drop j)).isSome) :
    (clean_bc_address s city prov).2
      = (matchPostalAt (s.toList.drop j)).map (fun l => String.mk l)
    ∧ clean_bc_address "123 Main St, Vancouver, British Columbia V5K0A1"
        "Vancouver" "British Columbia"
      = ("123 Main St", some "V5K0A1") := by
  constructor
  · have hdef : (clean_bc_address s city prov).2
        = (searchPostal s.toList).map (fun l => String.mk l) := rfl
    rw [hdef, searchPostal_at_first s.toList j h1 h2]
  · decide

theorem c6_first_postal_match_witness :
    (clean_bc_address "123 Main St, Vancouver, British Columbia V5K0A1"
        "Vancouver" "British Columbia").2
      = (matchPostalAt
          (("123 Main St, Vancouver, British Columbia V5K0A1").toList.drop 41)).map
          (fun l => String.mk l) :=
  (c6_first_postal_match "123 Main St, Vancouver, British Columbia V5K0A1"
    "Vancouver" "British Columbia" 41 (by decide) (by decide)).1

/-- C7 counterexample: an address with no postal pattern but with a trailing
`, City, Province` suffix.  The removal regex still fires (with an empty
postal part), so the returned address is NOT the input unchanged apart from
trimming — the suffix is deleted. -/
theorem c7_suffix_still_removed_counterexample :
    searchPostal ("5 Oak Rd, Vancouver, British Columbia").toList = none
    ∧ clean_bc_address "5 Oak Rd, Vancouver, British Columbia"
        "Vancouver" "British Columbia"
      = ("5 Oak Rd", none)
    ∧ String.mk (stripChars ("5 Oak Rd, Vancouver, British Columbia").toList)
        = "5 Oak Rd, Vancouver, British Columbia"
    ∧ ("5 Oak Rd" : String) ≠ "5 Oak Rd, Vancouver, British Columbia" := by
  exact ⟨by decide, by decide, by decide, by decide⟩

/-- C7 (amended): for an address with no postal-pattern substring the
extracted postal code is null; the address is still subject to the
`, city [,] province` suffix removal before trimming, and only when no
occurrence of that removal pattern exists either is the address returned
unchanged apart from trimming. -/
theorem c7_no_postal_cleanup_amended (s city prov : String)
    (h1 : ∀ k < s.toList.length, matchPostalAt (s.toList.drop k) = none)
    (h2 : ∀ k < s.toList.length,
        matchRemoveAt city prov none (s.toList.drop k) = none) :
    clean_bc_address s city prov = (String.mk (stripChars s.toList), none) := by
  have hsp : searchPostal s.toList = none := searchPostal_no_match s.toList h1
  unfold clean_bc_address
  rw [hsp]
  simp only [Option.map_none']
  rw [removeAll_no_match city prov none s.toList.length s.toList h2]

theorem c7_no_postal_cleanup_amended_witness :
    clean_bc_address "77 Pine Ave" "Vancouver" "British Columbia"
      = (String.mk (stripChars ("77 Pine Ave").toList), none) :=
  c7_no_postal_cleanup_amended "77 Pine Ave" "Vancouver" "British Columbia"
    (by decide) (by decide)

/-- C8: `process_province` fills every output record's region full name from
the fixed `PROVINCE_FULL_NAMES` table; an unknown region code fails with the
configuration error before any geocoding; and in the all-regions loop a
failing region's batch is skipped while every other region's batch is
processed exactly as if the bad config were absent. -/
theorem c8_region_lookup_isolated_failure (net : String → GeoResponse)
    (maxRetries : Nat) (svc : GeocodingService) (bad prov full : String)
    (rows rows2 : List RowState)
    (cfgs1 cfgs2 : List (String × List RowState))
    (hbad : PROVINCE_FULL_NAMES bad = none)
    (hfull : PROVINCE_FULL_NAMES prov = some full) :
    process_province net maxRetries svc bad rows = .error .configurationError
    ∧ (∃ res, process_province net maxRetries svc prov rows2 = .ok res
        ∧ res.1.length = rows2.length
        ∧ ∀ r' ∈ res.1, r'.fullProvinceName = full)
    ∧ runConfigs net maxRetries svc (cfgs1 ++ (bad, rows) :: cfgs2)
        = runConfigs net maxRetries svc (cfgs1 ++ cfgs2) :=
  ⟨process_province_unknown net maxRetries svc bad rows hbad,
   process_province_known net maxRetries svc prov full rows2 hfull,
   runConfigs_skip net maxRetries bad rows hbad cfgs1 svc cfgs2⟩

theorem c8_region_lookup_isolated_failure_witness :
    process_province failNet 3 emptySvc "XX" [] = .error .configurationError
    ∧ (∃ res, process_province failNet 3 emptySvc "AB" [abRow] = .ok res
        ∧ res.1.length = [abRow].length
        ∧ ∀ r' ∈ res.1, r'.fullProvinceName = "Alberta")
    ∧ runConfigs failNet 3 emptySvc ([("AB", [])] ++ ("XX", []) :: [])
        = runConfigs failNet 3 emptySvc ([("AB", [])] ++ []) :=
  c8_region_lookup_isolated_failure failNet 3 emptySvc "XX" "AB" "Alberta"
    [] [abRow] [("AB", [])] [] rfl rfl
